import Mathlib

/-!
Shallow embedding of the genclient worker (Go) for checking its
natural-language specification.

Modelled from the repository source:
  - tasks.go : the task model (`Tasukete`), its enums and custom JSON codec;
  - the WebSocket client source file : handshake, model advertisement,
    dispatch loop, TTI task handling, result envelope, reconnect supervisor;
  - the HTTP backend client source file : `GenerateImage` and its request
    body builder.

JSON documents are modelled as value trees (`Json`); the byte-level
tokenizer of Go's encoding/json is below the granularity of every claim and
is abstracted: encoding goes `Tasukete -> Json` (plus a faithful
`Json -> String` renderer where the byte form matters) and decoding goes
`Json -> Except String _`, mirroring the field-by-field behaviour of the Go
unmarshalers.
-/

/-- JSON value tree. Numbers are carried as rationals: the Go code performs
no floating-point arithmetic on them (only equality tests against literals
that are exactly representable), so this is a faithful value-level model. -/
inductive Json where
  | null : Json
  | bool (b : Bool) : Json
  | num (q : Rat) : Json
  | str (s : String) : Json
  | arr (xs : List Json) : Json
  | obj (kvs : List (String × Json)) : Json

/-- tasks.go `Type` (renamed: `Type` is a Lean keyword). The Go type is an
int with three named constants; no other value is ever constructed by this
program, so the enum is closed here. -/
inductive TaskType where
  | TTI
  | LLM
  | Recon
  deriving DecidableEq

/-- tasks.go `Type.String` (the `UNKNOWN` default arm is unreachable for the
closed enum). -/
def TaskType.string : TaskType → String
  | .TTI => "TTI"
  | .LLM => "LLM"
  | .Recon => "RECON"

/-- tasks.go `Type.UnmarshalJSON`: unmarshal the data as a string, then map
it through the symbol table; an unrecognized symbol is a hard error.
JSON null leaves the intermediate Go string at its zero value "", which
falls into the same default arm. -/
def decodeType (j : Json) : Except String TaskType :=
  match j with
  | .str s =>
    if s = "TTI" then .ok .TTI
    else if s = "LLM" then .ok .LLM
    else if s = "RECON" then .ok .Recon
    else .error ("unknown type: " ++ s)
  | .null => .error "unknown type: "
  | _ => .error "json: cannot unmarshal into string"

/-- tasks.go `TaskStatus`. -/
inductive TaskStatus where
  | StatusPending
  | StatusProcessing
  | StatusCompleted
  | StatusFailed
  deriving DecidableEq

/-- tasks.go `TaskStatus.String`. -/
def TaskStatus.string : TaskStatus → String
  | .StatusPending => "PENDING"
  | .StatusProcessing => "PROCESSING"
  | .StatusCompleted => "COMPLETED"
  | .StatusFailed => "FAILED"

/-- tasks.go `TaskStatus.UnmarshalJSON`: same shape as `decodeType`. -/
def decodeStatus (j : Json) : Except String TaskStatus :=
  match j with
  | .str s =>
    if s = "PENDING" then .ok .StatusPending
    else if s = "PROCESSING" then .ok .StatusProcessing
    else if s = "COMPLETED" then .ok .StatusCompleted
    else if s = "FAILED" then .ok .StatusFailed
    else .error ("unknown task status: " ++ s)
  | .null => .error "unknown task status: "
  | _ => .error "json: cannot unmarshal into string"

/-- Lower-case hexadecimal digit test (the alphabet of a canonical UUID). -/
def isHexLowerChar (c : Char) : Bool :=
  (('0' ≤ c) && (c ≤ '9')) || (('a' ≤ c) && (c ≤ 'f'))

/-- Canonical lower-case 8-4-4-4-12 UUID text: 36 characters, dashes at
positions 8, 13, 18 and 23, lower-case hex everywhere else. -/
def isCanonicalUUID (cs : List Char) : Bool :=
  (cs.length == 36) &&
    cs.enum.all (fun p =>
      if p.1 == 8 || p.1 == 13 || p.1 == 18 || p.1 == 23 then p.2 == '-'
      else isHexLowerChar p.2)

/-- github.com/google/uuid modelled at its interface: a UUID is carried in
the canonical lower-case textual form that the library's `String()` emits
(an injective image of the underlying 16 bytes, so equality of values agrees
with equality of the Go byte arrays).  `uuid.Parse` is modelled on this
canonical form; the library's additional accepted spellings (braced, URN,
undashed, upper-case) never occur on this program's wire and are out of
scope. -/
structure UUID where
  chars : List Char
  deriving DecidableEq

/-- `uuid.Nil`, the all-zero identifier. -/
def UUID.nil : UUID := ⟨"00000000-0000-0000-0000-000000000000".data⟩

/-- `uuid.UUID.String`. -/
def UUID.string (u : UUID) : String := String.mk u.chars

/-- `uuid.Parse`, restricted to the canonical form (see `UUID`). -/
def uuidParse (s : String) : Except String UUID :=
  if isCanonicalUUID s.data then .ok ⟨s.data⟩ else .error "invalid UUID format"

/-- Go's zero `time.Time` in its RFC3339 wire form. -/
def zeroTimeStr : String := "0001-01-01T00:00:00Z"

/-- tasks.go `Tasukete`.  `CreatedAt` (Go `time.Time`) is carried as its
RFC3339 wire string: the program never computes with the value, only
(un)marshals it through the time library, which is abstracted to the
identity on that string form.  `Metadata` (Go `map[string]any`) is carried
as an optional association list of JSON values: `none` is Go's nil map
(marshals to JSON null), `some` a (possibly empty) object. -/
structure Tasukete where
  uuid : UUID
  type : TaskType
  prompt : String
  model : Int
  metadata : Option (List (String × Json))
  createdAt : String
  status : TaskStatus

/-- tasks.go `Tasukete.Validate`: the only check is against the nil UUID.
The Go method reads the receiver and writes nothing; the model is a pure
function, so validation leaves every field unchanged by construction. -/
def Tasukete.Validate (t : Tasukete) : Except String Unit :=
  if t.uuid = UUID.nil then .error "invalid UUID" else .ok ()

/-- `{t with status := s}`, the in-place status writes of the Go code
(`task.Status = ...` / `UpdateStatus`). -/
def Tasukete.withStatus (t : Tasukete) (s : TaskStatus) : Tasukete :=
  { t with status := s }

/-- Metadata marshalling: a nil Go map marshals to JSON null, a non-nil map
to an object. -/
def encodeMetadata : Option (List (String × Json)) → Json
  | none => .null
  | some kvs => .obj kvs

/-- tasks.go `Tasukete.MarshalJSON`: marshals through an alias struct whose
promoted fields come first and whose `uuid` field is shadowed by the
canonical string form (the field order is Go's promoted-field order). -/
def encodeTask (t : Tasukete) : Json :=
  .obj [("type", .str t.type.string),
        ("prompt", .str t.prompt),
        ("model", .num (t.model : Rat)),
        ("metadata", encodeMetadata t.metadata),
        ("created_at", .str t.createdAt),
        ("status", .str t.status.string),
        ("uuid", .str t.uuid.string)]

/-- Last-occurrence object lookup: encoding/json lets a duplicated object
key overwrite the earlier value. -/
def lastLookup (kvs : List (String × Json)) (k : String) : Option Json :=
  kvs.foldl (fun acc kv => if kv.1 = k then some kv.2 else acc) none

/-- Go: unmarshalling JSON null into a string field is a no-op (the field
keeps its current value, here the zero value handed in as `dflt`). -/
def decodeStringOr (dflt : String) : Json → Except String String
  | .null => .ok dflt
  | .str s => .ok s
  | _ => .error "json: cannot unmarshal into string"

/-- Go int field decode: integral numbers only, null is a no-op. -/
def decodeIntOr (dflt : Int) : Json → Except String Int
  | .null => .ok dflt
  | .num q => if q.den = 1 then .ok q.num else .error "json: cannot unmarshal number into int"
  | _ => .error "json: cannot unmarshal into int"

/-- Go `map[string]any` field decode: null keeps the nil map, an object
yields its key/value pairs. -/
def decodeMetadata : Json → Except String (Option (List (String × Json)))
  | .null => .ok none
  | .obj kvs => .ok (some kvs)
  | _ => .error "json: cannot unmarshal into map"

/-- tasks.go `Tasukete.UnmarshalJSON`, field part: decode field-wise with Go
zero values for absent keys; the `uuid` key decodes as a string and is then
parsed, so an absent or null uuid fails (`uuid.Parse ""` errors). -/
def decodeTaskFields (kvs : List (String × Json)) : Except String Tasukete := do
  let ty ← match lastLookup kvs "type" with
    | none => Except.ok TaskType.TTI
    | some v => decodeType v
  let prompt ← match lastLookup kvs "prompt" with
    | none => Except.ok ""
    | some v => decodeStringOr "" v
  let model ← match lastLookup kvs "model" with
    | none => Except.ok 0
    | some v => decodeIntOr 0 v
  let meta ← match lastLookup kvs "metadata" with
    | none => Except.ok none
    | some v => decodeMetadata v
  let created ← match lastLookup kvs "created_at" with
    | none => Except.ok zeroTimeStr
    | some v => decodeStringOr zeroTimeStr v
  let status ← match lastLookup kvs "status" with
    | none => Except.ok TaskStatus.StatusPending
    | some v => decodeStatus v
  let uuidStr ← match lastLookup kvs "uuid" with
    | none => Except.ok ""
    | some v => decodeStringOr "" v
  let uu ← uuidParse uuidStr
  Except.ok ⟨uu, ty, prompt, model, meta, created, status⟩

/-- tasks.go `Tasukete.UnmarshalJSON`: a JSON object decodes field-wise;
JSON null is a whole-struct no-op (all fields stay at their zero values,
which then fails at the uuid parse, exactly as in Go); anything else is a
type error. -/
def decodeTask : Json → Except String Tasukete
  | .obj kvs => decodeTaskFields kvs
  | .null => decodeTaskFields []
  | _ => .error "json: cannot unmarshal into Tasukete"

/-- A well-formed task value: its UUID is in the canonical textual form
(every UUID the google/uuid library can produce has one). -/
abbrev Tasukete.wf (t : Tasukete) : Prop := isCanonicalUUID t.uuid.chars = true

/-- Hexadecimal digit character, lower case. -/
def hexDigitChar (n : Nat) : Char :=
  if n < 10 then Char.ofNat (48 + n) else Char.ofNat (87 + n)

/-- encoding/json string escaping (the default HTML-escaping encoder behind
json.Marshal and json.Encoder): quote, backslash, newline, carriage return,
tab, other control characters, plus the HTML-relevant <, >, & and the line
separators U+2028/U+2029. -/
def escapeJsonChar (c : Char) : String :=
  if c = '"' then "\\\""
  else if c = '\\' then "\\\\"
  else if c = '\n' then "\\n"
  else if c = '\r' then "\\r"
  else if c = '\t' then "\\t"
  else if c.toNat < 32 then
    String.mk ['\\', 'u', '0', '0', hexDigitChar (c.toNat / 16), hexDigitChar (c.toNat % 16)]
  else if c = '<' then "\\u003c"
  else if c = '>' then "\\u003e"
  else if c = '&' then "\\u0026"
  else if c.toNat = 8232 then "\\u2028"
  else if c.toNat = 8233 then "\\u2029"
  else String.mk [c]

/-- JSON string literal rendering. -/
def renderJsonString (s : String) : String :=
  "\"" ++ String.join (s.data.map escapeJsonChar) ++ "\""

/-- JSON number rendering. Every number this program renders is integral
(ids, dimensions, counts); a non-integral rational (possible only inside
metadata echoed from the wire) is rendered `num/den` as a model artifact —
no claim depends on that byte form. -/
def renderJsonNum (q : Rat) : String :=
  if q.den = 1 then toString q.num else toString q.num ++ "/" ++ toString q.den

mutual

/-- Compact JSON rendering, as produced by encoding/json. -/
def Json.render : Json → String
  | .null => "null"
  | .bool b => if b then "true" else "false"
  | .num q => renderJsonNum q
  | .str s => renderJsonString s
  | .arr xs => "[" ++ renderArr xs ++ "]"
  | .obj kvs => "\x7b" ++ renderObj kvs ++ "\x7d"

/-- Comma-joined array elements. -/
def renderArr : List Json → String
  | [] => ""
  | [x] => x.render
  | x :: y :: rest => x.render ++ "," ++ renderArr (y :: rest)

/-- Comma-joined `"key":value` object members. -/
def renderObj : List (String × Json) → String
  | [] => ""
  | [kv] => renderJsonString kv.1 ++ ":" ++ kv.2.render
  | kv :: kv2 :: rest =>
    renderJsonString kv.1 ++ ":" ++ kv.2.render ++ "," ++ renderObj (kv2 :: rest)

end

/-- Byte-level view of a text fragment: each character as its code point.
All protocol-framing text is ASCII, where this is exactly the byte; for
non-ASCII payload characters it is an injective stand-in for their UTF-8
bytes (no claim inspects those bytes individually). -/
def strBytes (s : String) : List Nat := s.data.map Char.toNat

/-- mime/multipart `escapeQuotes`, applied to field and file names. -/
def escapeQuotes (s : String) : String :=
  String.join (s.data.map (fun c =>
    if c = '\\' then "\\\\" else if c = '"' then "\\\"" else String.mk [c]))

/-- mime/multipart part opener: the dash-boundary line and the part headers.
The first part of a body has no leading CRLF; every later part is preceded
by one. The library emits headers sorted by name; each `Name: value` line is
CRLF-terminated and a blank line follows. -/
def multipartPartOpen (boundary : String) (first : Bool) (headers : List String) : String :=
  (if first then "" else "\r\n") ++ "--" ++ boundary ++ "\r\n" ++
    String.join (headers.map (fun h => h ++ "\r\n")) ++ "\r\n"

/-- mime/multipart `Writer.Close`: the closing dash-boundary line. -/
def multipartClose (boundary : String) : String := "\r\n--" ++ boundary ++ "--\r\n"

/-- `Writer.CreateFormField` header line. -/
def formFieldHeader (name : String) : String :=
  "Content-Disposition: form-data; name=\"" ++ escapeQuotes name ++ "\""

/-- `Writer.CreateFormFile` header lines (sorted order puts
Content-Disposition before Content-Type). -/
def formFileHeaders (name filename : String) : List String :=
  ["Content-Disposition: form-data; name=\"" ++ escapeQuotes name ++
     "\"; filename=\"" ++ escapeQuotes filename ++ "\"",
   "Content-Type: application/octet-stream"]

/-- WebSocket client `sendTaskResult`: build a multipart body with a `task`
form field holding the json.Encoder-produced JSON of the task (the Encoder
appends a newline) and a `file` form file named `<uuid>.png` holding the raw
image bytes, close the writer, and prepend the `Boundary: <b>` header line.
The boundary is random at run time and is a parameter here. -/
def sendTaskResult (boundary : String) (task : Tasukete) (result : List Nat) : List Nat :=
  let taskPart := strBytes (multipartPartOpen boundary true [formFieldHeader "task"]) ++
    strBytes ((encodeTask task).render ++ "\n")
  let filePart := strBytes (multipartPartOpen boundary false
      (formFileHeaders "file" (task.uuid.string ++ ".png"))) ++ result
  let body := taskPart ++ filePart ++ strBytes (multipartClose boundary)
  strBytes ("Boundary: " ++ boundary ++ "\n") ++ body

/-- Modelled from the spec's words (refinement target for the envelope
claim): the ASCII `Boundary:` line, then a standard two-part multi-part form
body — a `task` field part with the given content, then a `file` part with
the given file name and raw bytes, parts separated by the declared boundary
and closed by the final dash-boundary, per the standard encoding rules
(standard quoting applied to the file name). -/
def specTwoPartEnvelope (boundary : String) (taskContent : List Nat)
    (filename : String) (fileBytes : List Nat) : List Nat :=
  strBytes ("Boundary: " ++ boundary ++ "\n") ++
  strBytes ("--" ++ boundary ++ "\r\n" ++
    "Content-Disposition: form-data; name=\"task\"\r\n\r\n") ++ taskContent ++
  strBytes ("\r\n--" ++ boundary ++ "\r\n" ++
    "Content-Disposition: form-data; name=\"file\"; filename=\"" ++
    escapeQuotes filename ++ "\"\r\nContent-Type: application/octet-stream\r\n\r\n") ++
  fileBytes ++
  strBytes ("\r\n--" ++ boundary ++ "--\r\n")

/-- WebSocket client `Model` (a server-advertised model entry). -/
structure Model where
  id : Int
  name : String
  deriving DecidableEq

/-- Outbound frames written to the connection by one session, in order.
Transport write failures are logged by the source and never alter control
flow, so writes always succeed in the model. -/
inductive OutFrame where
  | authMsg (password : String)
  | modelsUpdate (models : List (Nat × String))
  | taskUpdate (t : Tasukete)
  | binary (bytes : List Nat)

/-- One inbound read in the dispatch loop: a decoded control message (the
payload is raw JSON and may be absent, as a nil `json.RawMessage`), or a
read error — abnormal close or otherwise. A finite list of these stands for
the frames delivered before the connection dies. -/
inductive InFrame where
  | msg (type : String) (payload : Option Json)
  | readErr (abnormalClose : Bool)

/-- A read `WebSocketMessage` (for the handshake reply). -/
structure WSMessage where
  type : String
  payload : Option Json

/-- Unmarshal a raw payload: a nil `json.RawMessage` is an unmarshal error
("unexpected end of JSON input"). -/
def decodeRaw (payload : Option Json) (dec : Json → Except String α) : Except String α :=
  match payload with
  | none => .error "unexpected end of JSON input"
  | some j => dec j

/-- Events observable from one run of the dispatch loop (sent frames and the
logging the source does on the non-fatal paths). -/
inductive LoopEvent where
  | sent (f : OutFrame)
  | taskDecodeFailure
  | invalidTask
  | modelsDecodeFailure
  | modelsUpdated (count : Nat)
  | unknownMessageType (ty : String)

/-- How the loop ended: the two read-error classifications from the source,
plus `inputExhausted`, the model artifact for "still blocked reading" once
the finite inbound list runs out. -/
inductive LoopExit where
  | inputExhausted
  | connectionClosed
  | readFailure
  deriving DecidableEq

/-- WebSocket client `handleTTITask`; `gen` is `Client.GenerateImage`
applied to (prompt, model selector) and `boundary` the multipart boundary
drawn for the envelope. Sets the status to Processing, sends a task update,
invokes the backend; on failure sends a Failed update, on success sends the
binary result envelope. -/
def handleTTITask (gen : String → Int → Except String (List Nat)) (boundary : String)
    (task : Tasukete) : List OutFrame :=
  let t1 := task.withStatus .StatusProcessing
  OutFrame.taskUpdate t1 ::
    match gen t1.prompt t1.model with
    | .error _ => [OutFrame.taskUpdate (t1.withStatus .StatusFailed)]
    | .ok img => [OutFrame.binary (sendTaskResult boundary t1 img)]

/-- WebSocket client `handleTask`: validate (log and return on failure),
then switch on the kind; only TTI has behavior — the LLM and Recon arms are
commented out in the source, so those kinds fall through with no action. -/
def handleTask (gen : String → Int → Except String (List Nat)) (boundary : String)
    (task : Tasukete) : List LoopEvent :=
  match task.Validate with
  | .error _ => [.invalidTask]
  | .ok _ =>
    match task.type with
    | .TTI => (handleTTITask gen boundary task).map .sent
    | _ => []

/-- Unmarshal one server `Model` entry (Go zero values for absent keys,
null as a whole-struct no-op). -/
def decodeModel (j : Json) : Except String Model :=
  match j with
  | .null => .ok ⟨0, ""⟩
  | .obj kvs => do
    let i ← match lastLookup kvs "id" with
      | none => Except.ok 0
      | some v => decodeIntOr 0 v
    let n ← match lastLookup kvs "name" with
      | none => Except.ok ""
      | some v => decodeStringOr "" v
    Except.ok ⟨i, n⟩
  | _ => .error "json: cannot unmarshal into Model"

/-- Unmarshal a `[]Model` payload (null gives the nil slice). -/
def decodeModels (j : Json) : Except String (List Model) :=
  match j with
  | .null => .ok []
  | .arr xs => xs.mapM decodeModel
  | _ => .error "json: cannot unmarshal into model list"

/-- WebSocket client `handleMessages`, run over a finite prefix of inbound
frames; `models` is the session's cached server-model list (`w.models`).
Returns the loop events in order and how the loop ended. One `boundary`
stands for the per-envelope random boundaries; no claim distinguishes two
envelopes of one session by boundary. -/
def handleMessages (gen : String → Int → Except String (List Nat)) (boundary : String)
    (models : List Model) : List InFrame → List LoopEvent × LoopExit
  | [] => ([], .inputExhausted)
  | .readErr abnormal :: _ =>
    ([], if abnormal then .connectionClosed else .readFailure)
  | .msg ty payload :: rest =>
    if ty = "task" then
      match decodeRaw payload decodeTask with
      | .error _ =>
        let r := handleMessages gen boundary models rest
        (.taskDecodeFailure :: r.1, r.2)
      | .ok task =>
        let r := handleMessages gen boundary models rest
        (handleTask gen boundary task ++ r.1, r.2)
    else if ty = "models_update" then
      match decodeRaw payload decodeModels with
      | .error _ =>
        let r := handleMessages gen boundary models rest
        (.modelsDecodeFailure :: r.1, r.2)
      | .ok ms =>
        let r := handleMessages gen boundary ms rest
        (.modelsUpdated ms.length :: r.1, r.2)
    else
      let r := handleMessages gen boundary models rest
      (.unknownMessageType ty :: r.1, r.2)

/-- Go unmarshal of the auth reply payload into `struct { Token string }`:
the struct tag is misspelled `josn` in the source, so encoding/json falls
back to matching the field name `Token` case-insensitively. A later
duplicate key overwrites; a non-string token value is a type error; a
MISSING key leaves the zero value "" with no error; JSON null (whole payload
or value) is a no-op; an absent raw payload or a non-object payload is an
unmarshal error. -/
def decodeAuthPayload (payload : Option Json) : Except String String :=
  match payload with
  | none => .error "unexpected end of JSON input"
  | some .null => .ok ""
  | some (.obj kvs) =>
    kvs.foldlM (fun tok kv =>
      if kv.1.toLower = "token" then
        match kv.2 with
        | .str s => Except.ok s
        | .null => Except.ok tok
        | _ => Except.error "json: cannot unmarshal into string"
      else Except.ok tok) ""
  | some _ => .error "json: cannot unmarshal into struct"

/-- WebSocket client `authenticate`, applied to the single reply read after
the auth request is written (`none` = the ReadJSON call failed). Returns the
bearer token retained in session state. -/
def authenticate (reply : Option WSMessage) : Except String String :=
  match reply with
  | none => .error "read error"
  | some r =>
    if r.type = "auth_success" then decodeAuthPayload r.payload
    else .error "auth failed"

/-- The claim's notion of "the payload carries a bearer token string": some
key the decoder matches as the token whose value is a string. -/
def payloadHasTokenString : Option Json → Bool
  | some (.obj kvs) =>
    kvs.any (fun kv =>
      kv.1.toLower == "token" &&
        (match kv.2 with | .str _ => true | _ => false))
  | _ => false

/-- config.go `ModelConfig`: one locally configured model. The two float32
parameters are carried as rationals (the code only tests `loraWeights`
against the exactly-representable 0.0 and never computes with either). -/
structure ModelConfig where
  name : String
  string : String
  width : Int
  height : Int
  steps : Int
  cfgscale : Rat
  loras : String
  loraWeights : Rat
  options : List (String × Json)

/-- WebSocket client `sendModels` payload: `(id: i+1, name)` per configured
model, in order. -/
def advertiseList (models : List ModelConfig) : List (Nat × String) :=
  models.enum.map (fun p => (p.1 + 1, p.2.name))

/-- The frames among a list of loop events. -/
def sentFrames (evts : List LoopEvent) : List OutFrame :=
  evts.filterMap (fun e => match e with | .sent f => some f | _ => none)

/-- Map the loop's end back to `connect`'s return value: both read-error
classifications are returned as session errors; an exhausted inbound list
(the loop still running) has no Go counterpart and is mapped to a non-error
so that the claims about failing sessions are not satisfied vacuously. -/
def exitError : LoopExit → Except String Unit
  | .inputExhausted => .ok ()
  | .connectionClosed => .error "connection closed"
  | .readFailure => .error "read error"

/-- WebSocket client `connect` after a successful dial: write the auth
request, run `authenticate` on the one reply, send the model advertisement
once, then run the dispatch loop (the ping loop writes no `type`-tagged
frames and is outside every claim). Produces every frame written on the
connection, in order, and the session's resulting error. -/
def connect (passcode : String) (cfgModels : List ModelConfig)
    (gen : String → Int → Except String (List Nat)) (boundary : String)
    (reply : Option WSMessage) (inbound : List InFrame) :
    List OutFrame × Except String Unit :=
  let authFrame := OutFrame.authMsg passcode
  match authenticate reply with
  | .error e => ([authFrame], .error ("authentication error: " ++ e))
  | .ok _token =>
    let r := handleMessages gen boundary [] inbound
    (authFrame :: OutFrame.modelsUpdate (advertiseList cfgModels) :: sentFrames r.1,
      exitError r.2)

/-- Observable actions of `Start`, the reconnect supervisor. -/
inductive SupEvent where
  | connectAttempt
  | logFailure (e : String)
  | sleepSeconds (n : Nat)
  deriving DecidableEq

/-- One iteration of `Start`'s unbounded `for`: run `connect`; on an error,
log it and sleep 5 seconds before continuing; on a nil error the loop just
re-enters. -/
def startIteration (result : Option String) : List SupEvent :=
  SupEvent.connectAttempt ::
    match result with
    | some e => [.logFailure e, .sleepSeconds 5]
    | none => []

/-- The first `n` iterations of `Start`, given the outcome of every
connection attempt (`results i` = the error attempt `i` returned, `none` for
a nil error). Total in `n`: the loop body has no break, return or panic, so
every attempt index is reached. -/
def startTrace (results : Nat → Option String) : Nat → List SupEvent
  | 0 => []
  | n + 1 => startTrace results n ++ startIteration (results n)

/-- Backend client `SessionResponse`. -/
structure SessionResponse where
  sessionID : String
  userID : String

/-- Outcomes of the three HTTP round trips `GenerateImage` can make, fixed
at the interface boundary: transport failure, a non-OK status or a body
decode failure are already folded into the error side of each. -/
structure BackendEnv where
  session : Except String SessionResponse
  genImages : Except String (List String)
  download : Except String (List Nat)

/-- HTTP requests issued to the backend, in order. -/
inductive BackendReq where
  | newSession
  | generateText2Image (body : List (String × Json))
  | download (url : String)

/-- Go map insert: overwrite the existing key in place or add the pair. -/
def mapInsert : List (String × Json) → String → Json → List (String × Json)
  | [], k, v => [(k, v)]
  | kv :: rest, k, v =>
    if kv.1 = k then (k, v) :: rest else kv :: mapInsert rest k v

/-- Go map lookup (the model keeps keys unique, so first match is the
value). -/
def mapLookup : List (String × Json) → String → Option Json
  | [], _ => none
  | kv :: rest, k => if kv.1 = k then some kv.2 else mapLookup rest k

/-- The prompt suffix the loras branch appends. -/
def lorasSuffix : String := ", open mouth, smile, chibi, :d, :3"

/-- Backend client `generateImage` request body (the `generateBody` map):
the base fields; then, when a loras name is configured, the loras entry —
and when that just-inserted entry is the one exact name
`GyateGyate_pdxl_Incrs_v1`, a rewritten prompt; then loraweights when
nonzero; then every configured free-form option. Options are written last
and can overwrite any earlier key of the map. -/
def buildGenerateBody (sessionID prompt : String) (model : ModelConfig) :
    List (String × Json) :=
  let base : List (String × Json) :=
    [("session_id", .str sessionID), ("images", .num 1), ("prompt", .str prompt),
     ("model", .str model.string), ("width", .num (model.width : Rat)),
     ("height", .num (model.height : Rat)), ("steps", .num (model.steps : Rat)),
     ("cfgscale", .num model.cfgscale)]
  let b1 :=
    if model.loras ≠ "" then
      let b := mapInsert base "loras" (.str model.loras)
      if model.loras = "GyateGyate_pdxl_Incrs_v1" then
        mapInsert b "prompt" (.str (prompt ++ lorasSuffix))
      else b
    else base
  let b2 :=
    if model.loraWeights ≠ 0 then
      mapInsert b1 "loraweights" (.num model.loraWeights)
    else b1
  model.options.foldl (fun m kv => mapInsert m kv.1 kv.2) b2

/-- Backend client `getNewSession`: one POST; a decoded response with an
empty session id is rejected. -/
def getNewSession (env : BackendEnv) : List BackendReq × Except String String :=
  ([.newSession],
    match env.session with
    | .error e => .error ("session request failed: " ++ e)
    | .ok r => if r.sessionID = "" then .error "received empty session ID" else .ok r.sessionID)

/-- Backend client lower-case `generateImage`: build the body, POST it, and
derive the image URL from the first returned relative path. The Go code
indexes `Models[modelID-1]` unguarded — its caller has already validated the
range; the out-of-range arm here stands for the Go index panic and is not
reachable from `GenerateImage`. -/
def generateImageCall (apiHost apiPort : String) (models : List ModelConfig)
    (env : BackendEnv) (sessionID prompt : String) (modelID : Int) :
    List BackendReq × Except String String :=
  match models.get? (modelID - 1).toNat with
  | none => ([], .error "model index out of range")
  | some model =>
    let body := buildGenerateBody sessionID prompt model
    ([.generateText2Image body],
      match env.genImages with
      | .error e => .error ("image generation request failed: " ++ e)
      | .ok images =>
        match images with
        | [] => .error "no images returned from response"
        | u :: _ => .ok ("http://" ++ apiHost ++ ":" ++ apiPort ++ "/" ++ u))

/-- Backend client `GenerateImage` (the byte-returning version with the
modelID guard): range-check the selector first, then session / generate /
download in order, accumulating the issued HTTP requests. -/
def GenerateImage (apiHost apiPort : String) (models : List ModelConfig)
    (env : BackendEnv) (prompt : String) (modelID : Int) :
    List BackendReq × Except String (List Nat) :=
  if modelID ≤ 0 ∨ modelID > (models.length : Int) then
    ([], .error "invalid modelID")
  else
    let r1 := getNewSession env
    match r1.2 with
    | .error e => (r1.1, .error ("failed to get session: " ++ e))
    | .ok sid =>
      let r2 := generateImageCall apiHost apiPort models env sid prompt modelID
      match r2.2 with
      | .error e => (r1.1 ++ r2.1, .error ("failed to generate image: " ++ e))
      | .ok url =>
        (r1.1 ++ r2.1 ++ [.download url],
          match env.download with
          | .error e => .error ("failed to download image: " ++ e)
          | .ok bytes => .ok bytes)

/-- A concrete well-formed TTI task, used by the concrete evaluations. -/
def sampleTask : Tasukete :=
  ⟨⟨"550e8400-e29b-41d4-a716-446655440000".data⟩, .TTI, "a cat", 1, none,
    "2024-02-14T12:00:00Z", .StatusPending⟩

/-- Distributing the byte view over string append. -/
theorem strBytes_append (a b : String) : strBytes (a ++ b) = strBytes a ++ strBytes b := by
  simp [strBytes, String.data_append]

/-- Inserting a key makes it the value the map yields for that key. -/
theorem mapLookup_mapInsert_self (m : List (String × Json)) (k : String) (v : Json) :
    mapLookup (mapInsert m k v) k = some v := by
  induction m with
  | nil => simp [mapInsert, mapLookup]
  | cons kv rest ih =>
    by_cases h : kv.1 = k <;> simp [mapInsert, mapLookup, h, ih]

/-- Inserting one key leaves every other key unchanged. -/
theorem mapLookup_mapInsert_ne (m : List (String × Json)) (k k' : String) (v : Json)
    (h : k' ≠ k) :
    mapLookup (mapInsert m k v) k' = mapLookup m k' := by
  induction m with
  | nil => simp [mapInsert, mapLookup, Ne.symm h]
  | cons kv rest ih =>
    by_cases h2 : kv.1 = k
    · simp [mapInsert, mapLookup, h2, Ne.symm h, h2 ▸ (Ne.symm h)]
    · simp [mapInsert, mapLookup, h2, ih]

/-- Folding in entries none of which carry the key leaves that key
unchanged. -/
theorem mapLookup_foldl_insert (opts : List (String × Json)) (k : String)
    (m : List (String × Json)) (h : ∀ kv ∈ opts, kv.1 ≠ k) :
    mapLookup (opts.foldl (fun acc kv => mapInsert acc kv.1 kv.2) m) k = mapLookup m k := by
  induction opts generalizing m with
  | nil => rfl
  | cons kv rest ih =>
    rw [List.foldl_cons, ih _ (fun x hx => h x (List.mem_cons_of_mem _ hx)),
      mapLookup_mapInsert_ne _ _ _ _ (Ne.symm (h kv (List.mem_cons_self _ _)))]

/-- C1 (amended): during the handshake, if the single reply read after
sending the auth request cannot be read, has a type other than
`auth_success`, or its payload fails to decode (absent, not an object, or a
token value of non-string type), then `authenticate` returns an error and
the session fails with exactly the auth request written — in particular, no
`models_update` (Model Advertisement) frame is ever sent. A well-formed
object payload that merely LACKS the token is not covered: see
`auth_missing_token_not_rejected`. -/
theorem auth_error_blocks_advertisement (passcode : String)
    (cfgModels : List ModelConfig) (gen : String → Int → Except String (List Nat))
    (boundary : String) (reply : Option WSMessage) (inbound : List InFrame)
    (h : reply = none ∨ ∃ r, reply = some r ∧
        (r.type ≠ "auth_success" ∨ ∃ e, decodeAuthPayload r.payload = .error e)) :
    ∃ e, connect passcode cfgModels gen boundary reply inbound =
      ([.authMsg passcode], .error e) := by
  rcases h with rfl | ⟨r, rfl, hr⟩
  · exact ⟨"authentication error: read error", rfl⟩
  · by_cases hty : r.type = "auth_success"
    · rcases hr with h' | ⟨e, he⟩
      · exact absurd hty h'
      · exact ⟨"authentication error: " ++ e, by simp [connect, authenticate, hty, he]⟩
    · exact ⟨"authentication error: auth failed", by simp [connect, authenticate, hty]⟩

/-- C1 witness: a reply of type `nope` makes the session fail with only the
auth request written. -/
theorem auth_error_blocks_advertisement_w :
    ((some (WSMessage.mk "nope" none) = none) ∨
      (∃ r, some (WSMessage.mk "nope" none) = some r ∧
        (r.type ≠ "auth_success" ∨ ∃ e, decodeAuthPayload r.payload = .error e))) ∧
    (∃ e, connect "pw" [] (fun _ _ => Except.error "backend down") "bnd"
        (some (WSMessage.mk "nope" none)) [] = ([.authMsg "pw"], .error e)) :=
  ⟨Or.inr ⟨_, rfl, Or.inl (by decide)⟩,
   auth_error_blocks_advertisement "pw" [] _ "bnd" _ []
     (Or.inr ⟨_, rfl, Or.inl (by decide)⟩)⟩

/-- C1 counterexample: an `auth_success` reply whose payload is the empty
JSON object lacks any bearer token string, yet `authenticate` succeeds with
the empty token and the session goes on to send the Model Advertisement —
refuting the claim as stated. -/
theorem auth_missing_token_not_rejected :
    payloadHasTokenString (some (Json.obj [])) = false ∧
    authenticate (some ⟨"auth_success", some (Json.obj [])⟩) = .ok "" ∧
    connect "pw" [] (fun _ _ => Except.error "backend down") "bnd"
        (some ⟨"auth_success", some (Json.obj [])⟩) [] =
      ([.authMsg "pw", .modelsUpdate []], .ok ()) :=
  ⟨rfl, rfl, rfl⟩

/-- C2: for a TTI task handled by the dispatch loop, the outbound frames are
exactly [task_update(Processing), binary result envelope] when the backend
call succeeds and exactly [task_update(Processing), task_update(Failed)] —
no result envelope — when it fails. -/
theorem tti_task_outbound_frames (gen : String → Int → Except String (List Nat))
    (boundary : String) (t : Tasukete) :
    (∀ img, gen t.prompt t.model = .ok img →
      handleTTITask gen boundary t =
        [.taskUpdate (t.withStatus .StatusProcessing),
         .binary (sendTaskResult boundary (t.withStatus .StatusProcessing) img)]) ∧
    (∀ e, gen t.prompt t.model = .error e →
      handleTTITask gen boundary t =
        [.taskUpdate (t.withStatus .StatusProcessing),
         .taskUpdate (t.withStatus .StatusFailed)]) := by
  constructor <;> intro x hx <;>
    simp [handleTTITask, Tasukete.withStatus, hx]

/-- C2 witness: the success case at a concrete task and backend. -/
theorem tti_task_outbound_frames_w :
    (((fun _ _ => Except.ok [1, 2, 3]) : String → Int → Except String (List Nat))
        sampleTask.prompt sampleTask.model = .ok [1, 2, 3]) ∧
    handleTTITask (fun _ _ => Except.ok [1, 2, 3]) "bnd" sampleTask =
      [.taskUpdate (sampleTask.withStatus .StatusProcessing),
       .binary (sendTaskResult "bnd" (sampleTask.withStatus .StatusProcessing) [1, 2, 3])] :=
  ⟨rfl, (tti_task_outbound_frames (fun _ _ => Except.ok [1, 2, 3]) "bnd" sampleTask).1
    [1, 2, 3] rfl⟩

set_option maxRecDepth 8192 in
/-- C3: the result envelope for a processed task is exactly the ASCII
`Boundary: <b>` line followed by a standard two-part multi-part form body —
a `task` field whose content is the JSON encoding of the task (as the
Encoder writes it, the encoding plus a trailing newline) and a `file` part
named `<uuid>.png` whose content is the raw image bytes; and the task
packaged is still in status Processing, never advanced to Completed. -/
theorem result_envelope_shape (boundary : String) (t : Tasukete) (img : List Nat) :
    sendTaskResult boundary (t.withStatus .StatusProcessing) img =
      specTwoPartEnvelope boundary
        (strBytes ((encodeTask (t.withStatus .StatusProcessing)).render ++ "\n"))
        ((t.withStatus .StatusProcessing).uuid.string ++ ".png") img ∧
    (t.withStatus .StatusProcessing).status = .StatusProcessing := by
  refine ⟨?_, rfl⟩
  simp [sendTaskResult, specTwoPartEnvelope, multipartPartOpen, multipartClose,
    formFieldHeader, formFileHeaders, strBytes_append, strBytes, escapeQuotes,
    String.join, List.append_assoc]

set_option maxRecDepth 8192 in
/-- C4: decoding the encoding of any well-formed task yields the task back,
for every kind and status symbol, every metadata map and model selector. -/
theorem decode_encode_roundtrip (t : Tasukete) (h : t.wf) :
    decodeTask (encodeTask t) = .ok t := by
  obtain ⟨⟨cs⟩, ty, prompt, model, meta, created, status⟩ := t
  have h' : isCanonicalUUID cs = true := h
  cases ty <;> cases status <;> cases meta <;>
    simp [encodeTask, decodeTask, decodeTaskFields, lastLookup, encodeMetadata,
      TaskType.string, TaskStatus.string, decodeType, decodeStatus, decodeStringOr,
      decodeIntOr, decodeMetadata, uuidParse, UUID.string, h', Rat.den_intCast,
      Rat.num_intCast, bind, Except.bind]

/-- C4 witness: the round trip at a concrete task. -/
theorem decode_encode_roundtrip_w :
    sampleTask.wf ∧ decodeTask (encodeTask sampleTask) = .ok sampleTask :=
  ⟨by decide, decode_encode_roundtrip sampleTask (by decide)⟩

/-- C5: a model selector outside [1, N] is rejected up front — the result is
an error and NO backend request (session, generation or download) is ever
issued. -/
theorem out_of_range_selector_no_backend_call (apiHost apiPort prompt : String)
    (models : List ModelConfig) (env : BackendEnv) (modelID : Int)
    (h : modelID ≤ 0 ∨ modelID > (models.length : Int)) :
    GenerateImage apiHost apiPort models env prompt modelID =
      ([], .error "invalid modelID") := by
  simp [GenerateImage, h]

/-- C5 witness: selector 0 against an empty model list. -/
theorem out_of_range_selector_no_backend_call_w :
    ((0 : Int) ≤ 0 ∨ (0 : Int) > (([] : List ModelConfig).length : Int)) ∧
    GenerateImage "h" "8080" [] ⟨.error "down", .error "down", .error "down"⟩ "a cat" 0 =
      ([], .error "invalid modelID") :=
  ⟨Or.inl (by decide),
   out_of_range_selector_no_backend_call "h" "8080" "a cat" []
     ⟨.error "down", .error "down", .error "down"⟩ 0 (Or.inl (by decide))⟩

/-- C6: a `task` control message whose payload fails to decode as a Task, or
decodes to a task that fails validation, only contributes one logged event:
the loop goes on to process the remaining frames exactly as it would have
without the malformed frame, with the same exit. -/
theorem malformed_task_continues_loop (gen : String → Int → Except String (List Nat))
    (boundary : String) (models : List Model) (payload : Option Json)
    (rest : List InFrame)
    (h : (∃ e, decodeRaw payload decodeTask = .error e) ∨
         (∃ t, decodeRaw payload decodeTask = .ok t ∧ ∃ e, t.Validate = .error e)) :
    ∃ ev, handleMessages gen boundary models (.msg "task" payload :: rest) =
      (ev :: (handleMessages gen boundary models rest).1,
        (handleMessages gen boundary models rest).2) := by
  rcases h with ⟨e, he⟩ | ⟨t, ht, e, he⟩
  · exact ⟨.taskDecodeFailure, by simp [handleMessages, he]⟩
  · exact ⟨.invalidTask, by simp [handleMessages, ht, handleTask, he]⟩

/-- C6 witness: a numeric task payload is malformed; the valid task frame
after it is still processed (its Processing and Failed updates are sent). -/
theorem malformed_task_continues_loop_w :
    (∃ e, decodeRaw (some (Json.num 3)) decodeTask = .error e) ∧
    (∃ ev, handleMessages (fun _ _ => Except.error "backend down") "bnd" []
        (.msg "task" (some (Json.num 3)) :: [.msg "task" (some (encodeTask sampleTask))]) =
      (ev :: (handleMessages (fun _ _ => Except.error "backend down") "bnd" []
          [.msg "task" (some (encodeTask sampleTask))]).1,
        (handleMessages (fun _ _ => Except.error "backend down") "bnd" []
          [.msg "task" (some (encodeTask sampleTask))]).2)) ∧
    sentFrames (handleMessages (fun _ _ => Except.error "backend down") "bnd" []
        [.msg "task" (some (encodeTask sampleTask))]).1 =
      [.taskUpdate (sampleTask.withStatus .StatusProcessing),
       .taskUpdate ((sampleTask.withStatus .StatusProcessing).withStatus .StatusFailed)] :=
  ⟨⟨_, rfl⟩,
   malformed_task_continues_loop _ _ _ _ _ (Or.inl ⟨_, rfl⟩),
   rfl⟩

/-- C7: the reconnect supervisor never terminates — every attempt index is
reached whatever the attempt outcomes are — and an attempt that returns an
error is followed by exactly a log and a fixed 5-unit sleep before the next
attempt. -/
theorem supervisor_retries_forever (results : Nat → Option String) (n : Nat) :
    (startTrace results n).count SupEvent.connectAttempt = n ∧
      (∀ e, results n = some e →
        startIteration (results n) =
          [.connectAttempt, .logFailure e, .sleepSeconds 5]) := by
  constructor
  · induction n with
    | zero => rfl
    | succ k ih =>
      rw [startTrace, List.count_append, ih]
      cases results k <;> simp [startIteration]
  · intro e he
    simp [startIteration, he]

/-- C7 witness: an always-failing session is attempted 3 times in the first
3 iterations, each followed by the 5-unit sleep. -/
theorem supervisor_retries_forever_w :
    ((startTrace (fun _ => some "dial error") 3).count SupEvent.connectAttempt = 3) ∧
    ((fun (_ : Nat) => some "dial error") 3 = some "dial error") ∧
    startIteration ((fun (_ : Nat) => some "dial error") 3) =
      [.connectAttempt, .logFailure "dial error", .sleepSeconds 5] := by
  obtain ⟨h1, h2⟩ := supervisor_retries_forever (fun _ => some "dial error") 3
  exact ⟨h1, rfl, h2 "dial error" rfl⟩

/-- C8: each enum decoder rejects every string outside its OWN symbol table
with a hard error — never silently defaulting — independently of the other
table (so a kind decoder fed a status symbol such as PENDING errors, and
vice versa). -/
theorem unknown_symbol_decode_fails (s s' : String)
    (hk : s ∉ ["TTI", "LLM", "RECON"])
    (hs : s' ∉ ["PENDING", "PROCESSING", "COMPLETED", "FAILED"]) :
    decodeType (.str s) = .error ("unknown type: " ++ s) ∧
      decodeStatus (.str s') = .error ("unknown task status: " ++ s') := by
  simp only [List.mem_cons, List.not_mem_nil, or_false, not_or] at hk hs
  obtain ⟨h1, h2, h3⟩ := hk
  obtain ⟨h4, h5, h6, h7⟩ := hs
  constructor
  · simp [decodeType, h1, h2, h3]
  · simp [decodeStatus, h4, h5, h6, h7]

/-- C8 witness: the kind decoder rejects the status symbol PENDING and the
status decoder rejects the kind symbol TTI. -/
theorem unknown_symbol_decode_fails_w :
    ("PENDING" ∉ (["TTI", "LLM", "RECON"] : List String)) ∧
    ("TTI" ∉ (["PENDING", "PROCESSING", "COMPLETED", "FAILED"] : List String)) ∧
    (decodeType (.str "PENDING") = .error ("unknown type: " ++ "PENDING") ∧
      decodeStatus (.str "TTI") = .error ("unknown task status: " ++ "TTI")) :=
  ⟨by decide, by decide, unknown_symbol_decode_fails "PENDING" "TTI" (by decide) (by decide)⟩

/-- C9 (amended): when the free-form Options of the selected model do not
define the key `prompt`, the `prompt` field of the generation request body
equals the given prompt — except for the one exact loras name
`GyateGyate_pdxl_Incrs_v1`, where the fixed suffix is appended. Options are
copied into the body last and can overwrite the field: see
`options_can_overwrite_prompt`. -/
theorem prompt_field_of_generate_body (sessionID prompt : String) (model : ModelConfig)
    (h : ∀ kv ∈ model.options, kv.1 ≠ "prompt") :
    mapLookup (buildGenerateBody sessionID prompt model) "prompt" =
      some (.str (if model.loras = "GyateGyate_pdxl_Incrs_v1" then prompt ++ lorasSuffix
        else prompt)) := by
  unfold buildGenerateBody
  rw [mapLookup_foldl_insert _ _ _ h]
  by_cases hl : model.loras = "GyateGyate_pdxl_Incrs_v1"
  · have hne : model.loras ≠ "" := by rw [hl]; decide
    by_cases hw : model.loraWeights ≠ 0 <;>
      simp [hne, hl, hw, mapLookup_mapInsert_self,
        mapLookup_mapInsert_ne _ _ _ _ (by decide : ("prompt" : String) ≠ "loraweights")]
  · by_cases he : model.loras = ""
    · by_cases hw : model.loraWeights ≠ 0 <;>
        simp [he, hl, hw, mapLookup,
          mapLookup_mapInsert_ne _ _ _ _ (by decide : ("prompt" : String) ≠ "loraweights")]
    · by_cases hw : model.loraWeights ≠ 0 <;>
        simp [he, hl, hw, mapLookup,
          mapLookup_mapInsert_ne _ _ _ _ (by decide : ("prompt" : String) ≠ "loraweights"),
          mapLookup_mapInsert_ne _ _ _ _ (by decide : ("prompt" : String) ≠ "loras")]

/-- C9 witness: the magic loras name appends the suffix when no option is
keyed `prompt`. -/
theorem prompt_field_of_generate_body_w :
    (∀ kv ∈ ([("steps", Json.num 30)] : List (String × Json)), kv.1 ≠ "prompt") ∧
    mapLookup (buildGenerateBody "sid" "a cat"
        ⟨"demo", "m", 512, 512, 20, 7, "GyateGyate_pdxl_Incrs_v1", 1,
          [("steps", .num 30)]⟩) "prompt" =
      some (.str (if ("GyateGyate_pdxl_Incrs_v1" : String) = "GyateGyate_pdxl_Incrs_v1"
        then "a cat" ++ lorasSuffix else "a cat")) :=
  ⟨by decide, prompt_field_of_generate_body "sid" "a cat" _ (by decide)⟩

/-- C9 counterexample: a model whose Options define `prompt` makes the body
field differ from the given prompt (and its loras is not the magic name), so
the claim as stated is false. -/
theorem options_can_overwrite_prompt :
    mapLookup (buildGenerateBody "sid" "a cat"
      ⟨"demo", "m", 512, 512, 20, 7, "", 0, [("prompt", .str "not the prompt")]⟩) "prompt" =
      some (.str "not the prompt") ∧
    Json.str "not the prompt" ≠ Json.str "a cat" ∧
    ("" : String) ≠ "GyateGyate_pdxl_Incrs_v1" := by
  refine ⟨rfl, ?_, by decide⟩
  intro heq
  injection heq with h'
  exact absurd h' (by decide)

/-- C10: task validation fails exactly when the UUID is the nil identifier;
every task with a non-nil UUID passes whatever its prompt, selector or kind
(and, validation being a pure read, no field is changed by it). -/
theorem validate_errors_iff_nil_uuid (t : Tasukete) :
    (∃ e, t.Validate = .error e) ↔ t.uuid = UUID.nil := by
  by_cases h : t.uuid = UUID.nil <;> simp [Tasukete.Validate, h]
